import Mathlib

/-!
Verification of the contextual fire-detection pipeline (`20161013_hdf_frp.py`).

Shallow embedding conventions:
* 2-D rasters are functions `ℕ → ℕ → ℚ` (brightness-temperature fields) or
  `ℕ → ℕ → ℤ` (integer mask / count grids), together with explicit dimensions
  `i × j`; `numpy` float values are modelled by exact rationals.
* `np.pad(·, mode=symmetric)` and the default `reflect` boundary of
  `scipy.ndimage.generic_filter` are modelled by the index reflection `symIdx`,
  which agrees with numpy's symmetric reflection for every integer index.
* Per-pixel loops become per-pixel functions: each output cell of the source
  depends only on the input grids at reflected indices, so a cell-indexed
  function is an exact model of the array program.
* Python 2 `/` on numpy integer arrays is floor division, modelled by
  `Int.fdiv`; `x / 0 = 0` for integers matches numpy's behaviour of returning
  `0` on integer division by zero.
-/

namespace FRP

/-- Symmetric (edge-including) boundary reflection of an arbitrary integer
index `t` into `[0, n)`: the index map realised by `np.pad(mode=symmetric)`
and by `generic_filter`'s default `reflect` mode. -/
def symIdx (n : ℕ) (t : ℤ) : ℕ :=
  if n = 0 then 0
  else
    let m := (t % (2 * (n : ℤ))).toNat
    if m < n then m else 2 * n - 1 - m

/-- `makeFootprint(kSize)` from the source: a `kSize × kSize` grid of `1`s,
with the three cells at row `(kSize-1)/2`, columns
`(kSize-1)/2 - 1 .. (kSize-1)/2 + 1` overwritten with `-5`. -/
def makeFootprint (kSize : ℕ) : List (List ℤ) :=
  (List.range kSize).map (fun r =>
    (List.range kSize).map (fun c =>
      if r = (kSize - 1) / 2 ∧
          ((kSize - 1) / 2 - 1 ≤ c ∧ c < (kSize - 1) / 2 - 1 + 3) then
        -5
      else 1))

/-- Cell lookup in the footprint mask. -/
def fpCell (k r c : ℕ) : ℤ :=
  ((makeFootprint k).getD r []).getD c 1

/-- `np.mean` of a list of rationals. -/
def qmean (l : List ℚ) : ℚ :=
  l.sum / l.length

/-- Mean absolute deviation: `np.mean(np.abs(nghbrs - bgMean))`. -/
def qmad (l : List ℚ) : ℚ :=
  (l.map (fun x => |x - qmean l|)).sum / l.length

/-- The valid neighbours of pixel `(px, py)` in the `k × k` window of field
`F` (dimensions `i × j`, symmetric boundary reflection): the kernel is copied,
cells where the footprint is negative are overwritten with `-5`, and the
strictly positive survivors are kept — exactly
`kernel[fpMask < 0] = -5; nghbrs = kernel[kernel > 0]` from the source. -/
def nbrs (F : ℕ → ℕ → ℚ) (i j px py k : ℕ) : List ℚ :=
  ((List.range k).map (fun u =>
    (List.range k).filterMap (fun v =>
      let cellVal :=
        if fpCell k u v < 0 then (-5 : ℚ)
        else
          F (symIdx i ((px : ℤ) - ((k - 1) / 2 : ℕ) + (u : ℕ)))
            (symIdx j ((py : ℤ) - ((k - 1) / 2 : ℕ) + (v : ℕ)))
      if 0 < cellVal then some cellVal else none))).flatten

/-- One window size of `wakelinMeanMADFilter`: the `(Mean, MAD)` cell written
by the pass at window size `k` (with `minKsize = 5`).  The pixel is processed
only if `kSize == minKsize or centerVal == -4`, and `centerVal` is not the
water (`-1`) or cloud (`-2`) sentinel; the statistics are written only when
the neighbour count exceeds both `minNcount = 8` and `minNfrac·k² = k²/4`.
Unwritten cells keep the initialisation value `-4`. -/
def meanMADWindow (F : ℕ → ℕ → ℚ) (i j k px py : ℕ) : ℚ × ℚ :=
  let centerVal := F px py
  if (k = 5 ∨ centerVal = -4) ∧ centerVal ≠ -2 ∧ centerVal ≠ -1 then
    let nghbrs := nbrs F i j px py k
    if 8 < nghbrs.length ∧ (1 / 4 : ℚ) * (k : ℚ) ^ 2 < (nghbrs.length : ℚ) then
      (qmean nghbrs, qmad nghbrs)
    else (-4, -4)
  else (-4, -4)

/-- The back-fill step of the source: a cell still holding `-4` is replaced by
the next window's value, an already-written cell is kept. -/
def fillStep (cur next : ℚ) : ℚ :=
  if cur = -4 then next else cur

/-- Componentwise back-fill of a `(Mean, MAD)` pair (the source back-fills the
two arrays independently, each under its own `== -4` test). -/
def fillPair (acc w : ℚ × ℚ) : ℚ × ℚ :=
  (fillStep acc.1 w.1, fillStep acc.2 w.2)

/-- The window sizes tried after `minKsize = 5`. -/
def ksRest : List ℕ := [7, 9, 11, 13, 15, 17, 19, 21]

/-- Pointwise model of `wakelinMeanMADFilter(band, 21, 5)`: the `k = 5` grid,
back-filled at `-4` cells from the grids of each larger window size in turn. -/
def wakelinMeanMADFilter (F : ℕ → ℕ → ℚ) (i j px py : ℕ) : ℚ × ℚ :=
  ksRest.foldl (fun acc k => fillPair acc (meanMADWindow F i j k px py))
    (meanMADWindow F i j 5 px py)

/-- All window sizes, smallest first. -/
def kSizes : List ℕ := [5, 7, 9, 11, 13, 15, 17, 19, 21]

/-- Modelled from the spec: window size `k` "succeeds" at a pixel when the
footprint-filtered strictly-positive neighbour set `N` satisfies
`|N| > minNcount = 8` and `|N| > minNfrac·k² = 0.25·k²`. -/
def windowSucceeds (F : ℕ → ℕ → ℚ) (i j px py k : ℕ) : Bool :=
  decide (8 < (nbrs F i j px py k).length ∧
    (1 / 4 : ℚ) * (k : ℚ) ^ 2 < ((nbrs F i j px py k).length : ℚ))

/-- Modelled from the spec: the adaptive statistics the specification
describes — the mean and MAD of the neighbour set of the *smallest* window
size in `{5, 7, …, 21}` that succeeds, and `(-4, -4)` when none succeeds. -/
def specAdaptiveMeanMAD (F : ℕ → ℕ → ℚ) (i j px py : ℕ) : ℚ × ℚ :=
  match kSizes.find? (windowSucceeds F i j px py) with
  | some k => (qmean (nbrs F i j px py k), qmad (nbrs F i j px py k))
  | none => (-4, -4)

/-- A 5×5 field whose four corners and centre hold the valid temperature `10`
and whose other cells hold the invalid value `0`: at the centre pixel the
5×5 window yields only 4 valid neighbours (failure) while the 7×7 window
yields 16 (success). -/
def exGridA : ℕ → ℕ → ℚ := fun r c =>
  if (r = 0 ∨ r = 4) ∧ (c = 0 ∨ c = 4) then 10
  else if r = 2 ∧ c = 2 then 10 else 0

/-- A 5×5 field entirely at the valid temperature `10` except for a
background-candidate sentinel `-3` at the centre. -/
def exGridB : ℕ → ℕ → ℚ := fun r c =>
  if r = 2 ∧ c = 2 then -3 else 10

/-- A 5×5 field entirely at the valid temperature `10` except for a water
sentinel `-1` at the centre. -/
def exGridC : ℕ → ℕ → ℚ := fun r c =>
  if r = 2 ∧ c = 2 then -1 else 10

/-- `rampFn(band, rampMin, rampMax)` from the source.  Note that `conf` is
initialised once, *outside* the loop, and is only reassigned when one of the
two `if` branches fires: an element with `bandVal ≤ rampMin` inherits the
`conf` computed for an earlier element. -/
def rampFn (band : List ℚ) (rampMin rampMax : ℚ) : List ℚ :=
  (band.foldl (fun (acc : ℚ × List ℚ) bandVal =>
    let confA :=
      if rampMin < bandVal ∧ bandVal < rampMax then
        (bandVal - rampMin) / (rampMax - rampMin)
      else acc.1
    let confB := if bandVal ≥ rampMax then 1 else confA
    (confB, acc.2 ++ [confB])) ((0 : ℚ), ([] : List ℚ))).2

/-- Modelled from the spec: the pointwise ramp
`ramp(v,a,b) = 0 if v ≤ a; (v−a)/(b−a) if a < v < b; 1 if v ≥ b`. -/
def specRamp (v a b : ℚ) : ℚ :=
  if v ≤ a then 0 else if v < b then (v - a) / (b - a) else 1

/-! Detection-cascade mask combination, per pixel.  Each test grid holds the
integer `1` where the test fired and `0` elsewhere (every grid is created
with `np.zeros` and selectively set to `1`). -/

/-- `fireLocTentative = deltaTMADfire * deltaTfire * B22fire`. -/
def fireLocTentative (deltaTMADfire deltaTfire B22fire : ℤ) : ℤ :=
  deltaTMADfire * deltaTfire * B22fire

/-- `fireLocB31andB22rejFire`: `1` where `B22rejFire == 1 or B31fire == 1`. -/
def fireLocB31andB22rejFire (B22rejFire B31fire : ℤ) : ℤ :=
  if B22rejFire = 1 ∨ B31fire = 1 then 1 else 0

/-- `fireLocTentativeDay = potFire * fireLocTentative * fireLocB31andB22rejFire`. -/
def fireLocTentativeDay (potFire tentative b31orRej : ℤ) : ℤ :=
  potFire * tentative * b31orRej

/-- `dayFires`: `1` where `dayFlag == 1 and (absValTest == 1 or
fireLocTentativeDay == 1)`. -/
def dayFires (dayFlag absValTest tentativeDay : ℤ) : ℤ :=
  if dayFlag = 1 ∧ (absValTest = 1 ∨ tentativeDay = 1) then 1 else 0

/-- `nightFires`: the source line is
`(dayFlag == 0) & ((fireLocTentative == 1) | absValTest == 1)`, which Python
parses as `(dayFlag == 0) & (((fireLocTentative == 1) | absValTest) == 1)`:
the boolean array `fireLocTentative == 1` is bitwise-or'ed with the integer
array `absValTest` and the result compared with `1`. -/
def nightFires (dayFlag tentative absValTest : ℤ) : ℤ :=
  if dayFlag = 0 ∧
      Int.lor (if tentative = 1 then 1 else 0) absValTest = 1 then 1
  else 0

/-- `allFires = dayFires + nightFires`. -/
def allFires (dayF nightF : ℤ) : ℤ := dayF + nightF

/-- The final rejection: `allFires[(sgAll == 1) | (dbAll == 1) |
(rejUnmaskedWater == 1)] = 0`. -/
def allFiresFinal (fires sgAll dbAll rejUW : ℤ) : ℤ :=
  if sgAll = 1 ∨ dbAll = 1 ∨ rejUW = 1 then 0 else fires

/-! Coastal false-alarm rejection. -/

/-- `ndvi = (BAND2x1k + BAND1x1k) / (BAND2x1k + BAND1x1k)` on integer grids:
Python 2 floor division, with numpy's `0 / 0 = 0` for integers. -/
def ndviCell (b1 b2 : ℤ) : ℤ :=
  Int.fdiv (b2 + b1) (b2 + b1)

/-- The unmasked-water flag condition of the source:
`(ndvi < 0) & (BAND7x1k < 50) & (BAND2x1k < 150)`. -/
def uwPredicate (b1 b2 b7 : ℤ) : Prop :=
  ndviCell b1 b2 < 0 ∧ b7 < 50 ∧ b2 < 150

instance uwPredicateDecidable (b1 b2 b7 : ℤ) : Decidable (uwPredicate b1 b2 b7) :=
  decidable_of_iff (ndviCell b1 b2 < 0 ∧ b7 < 50 ∧ b2 < 150) Iff.rfl

/-- Modelled from the spec: the reduced coastal test
`R_swir < 50 ∧ R_vis2 < 150` the specification says the implemented test is
equivalent to. -/
def reducedCoastalTest (b2 b7 : ℤ) : Prop :=
  b7 < 50 ∧ b2 < 150

instance reducedCoastalTestDecidable (b2 b7 : ℤ) :
    Decidable (reducedCoastalTest b2 b7) :=
  decidable_of_iff (b7 < 50 ∧ b2 < 150) Iff.rfl

/-- One cell of the `unmaskedWater` grid: the grid starts at `0`, is set to
`-6` where the unmasked-water condition holds, and then overwritten with the
background flag `-3` wherever `bgMask == bgFlag` (the later assignment
wins). -/
def unmaskedWaterCell (nd b7 b2 bg : ℤ) : ℤ :=
  if bg = -3 then -3
  else if nd < 0 ∧ b7 < 50 ∧ b2 < 150 then -6
  else 0

/-- The `unmaskedWater` grid built from the reflectance grids and the
background mask. -/
def unmaskedWaterGrid (B1 B2 B7 BG : ℕ → ℕ → ℤ) : ℕ → ℕ → ℤ := fun p q =>
  unmaskedWaterCell (ndviCell (B1 p q) (B2 p q)) (B7 p q) (B2 p q) (BG p q)

/-- `nUnmaskedWaterFilt(kernel, kSize, …)`: `-4` unless
`(kSize == minKsize or centerVal == -4) and centerVal not in range(-3, 0)`,
in which case the number of kernel cells equal to `-6`. -/
def nUnmaskedWaterFilt (kernel : ℕ → ℕ → ℤ) (kSize : ℕ) : ℤ :=
  let centerVal := kernel ((kSize - 1) / 2) ((kSize - 1) / 2)
  if (kSize = 5 ∨ centerVal = -4) ∧
      centerVal ≠ -3 ∧ centerVal ≠ -2 ∧ centerVal ≠ -1 then
    (((List.range kSize).map (fun u =>
      (List.range kSize).countP (fun v => kernel u v == -6))).sum : ℕ)
  else -4

/-- `scipy.ndimage.generic_filter(G, filtFunc, size=kSize, …)` at one pixel:
the `kSize × kSize` kernel is read from `G` under reflecting boundary and
passed to the filter function. -/
def genericFilter (filtFunc : (ℕ → ℕ → ℤ) → ℕ → ℤ) (G : ℕ → ℕ → ℤ)
    (i j kSize : ℕ) : ℕ → ℕ → ℤ :=
  fun px py =>
    filtFunc (fun u v =>
      G (symIdx i ((px : ℤ) - ((kSize - 1) / 2 : ℕ) + (u : ℕ)))
        (symIdx j ((py : ℤ) - ((kSize - 1) / 2 : ℕ) + (v : ℕ)))) kSize

/-- The chained filter grids of `runFilt`: each `generic_filter` pass runs on
the *output* of the previous pass (`filtBand` is reassigned in the loop);
index `n` corresponds to window size `5 + 2n`. -/
def runFiltSeq (filtFunc : (ℕ → ℕ → ℤ) → ℕ → ℤ) (G : ℕ → ℕ → ℤ)
    (i j : ℕ) : ℕ → ℕ → ℕ → ℤ
  | 0 => genericFilter filtFunc G i j 5
  | n + 1 => genericFilter filtFunc (runFiltSeq filtFunc G i j n) i j (7 + 2 * n)

/-- The back-fill step of `runFilt` on integer grids. -/
def fillStepZ (cur next : ℤ) : ℤ :=
  if cur = -4 then next else cur

/-- Pointwise model of `runFilt(band, filtFunc, 5, 21)`: the size-5 grid,
back-filled at `-4` cells from each subsequent chained grid in turn. -/
def runFilt (filtFunc : (ℕ → ℕ → ℤ) → ℕ → ℤ) (G : ℕ → ℕ → ℤ)
    (i j px py : ℕ) : ℤ :=
  (List.range 8).foldl
    (fun acc n => fillStepZ acc (runFiltSeq filtFunc G i j (n + 1) px py))
    (runFiltSeq filtFunc G i j 0 px py)

/-- `Nuw = runFilt(unmaskedWater, nUnmaskedWaterFilt, minKsize, maxKsize)`. -/
def Nuw (B1 B2 B7 BG : ℕ → ℕ → ℤ) (i j px py : ℕ) : ℤ :=
  runFilt nUnmaskedWaterFilt (unmaskedWaterGrid B1 B2 B7 BG) i j px py

/-- `rejUnmaskedWater`: `1` where `absValTest == 0` and `Nuw > 0`. -/
def rejUnmaskedWaterCell (absValTest nuw : ℤ) : ℤ :=
  if absValTest = 0 ∧ 0 < nuw then 1 else 0

/-! Detection confidence.  `scipy.stats.gmean` computes
`exp(mean(log(x)))` in floating point; at a zero sub-score `log` yields
`-inf` and `exp(-inf) = 0`, which the real-number embedding expresses by the
explicit zero test.  All sub-scores are ramp outputs in `[0, 1]`, so no
negative argument reaches `log`. -/

/-- Day confidence: `gmean` of the stacked rows `C1day, C2, C3, C4, C5` at
one fire pixel. -/
noncomputable def detnConfDay (c1 c2 c3 c4 c5 : ℝ) : ℝ :=
  if c1 = 0 ∨ c2 = 0 ∨ c3 = 0 ∨ c4 = 0 ∨ c5 = 0 then 0
  else
    Real.exp ((Real.log c1 + Real.log c2 + Real.log c3 + Real.log c4 +
      Real.log c5) / 5)

/-- Night confidence: `gmean` of the stacked rows `C1night, C2, C3`. -/
noncomputable def detnConfNight (c1 c2 c3 : ℝ) : ℝ :=
  if c1 = 0 ∨ c2 = 0 ∨ c3 = 0 then 0
  else Real.exp ((Real.log c1 + Real.log c2 + Real.log c3) / 3)

/-- The emitted confidence of one fire pixel: `detnConf` starts as
`detnConfDay` and is overwritten with `detnConfNight` where
`firesDayFlag == 0`. -/
noncomputable def detnConf (dayFlag : ℤ) (c1day c1night c2 c3 c4 c5 : ℝ) : ℝ :=
  if dayFlag = 0 then detnConfNight c1night c2 c3
  else detnConfDay c1day c2 c3 c4 c5

/-- The invariant each `(Mean, MAD)` cell satisfies: the two components are
`-4` together, a non-`-4` mean is strictly positive, and a non-`-4` MAD is
non-negative. -/
def statOK (q : ℚ × ℚ) : Prop :=
  (q.1 = -4 ↔ q.2 = -4) ∧ (q.1 = -4 ∨ 0 < q.1) ∧ (q.2 = -4 ∨ 0 ≤ q.2)

/-! ### Arithmetic helper lemmas for the adaptive statistics -/

lemma qmean_replicate (n : ℕ) (x : ℚ) (hn : n ≠ 0) :
    qmean (List.replicate n x) = x := by
  rw [qmean, List.sum_replicate, List.length_replicate, nsmul_eq_mul,
    mul_div_cancel_left₀]
  exact Nat.cast_ne_zero.mpr hn

lemma qmad_replicate (n : ℕ) (x : ℚ) (hn : n ≠ 0) :
    qmad (List.replicate n x) = 0 := by
  rw [qmad, List.map_replicate, qmean_replicate n x hn, sub_self, abs_zero,
    List.sum_replicate, smul_zero, zero_div]

lemma qmean_pos {l : List ℚ} (hne : l ≠ []) (hpos : ∀ x ∈ l, 0 < x) :
    0 < qmean l := by
  rw [qmean]
  exact div_pos (List.sum_pos l hpos hne)
    (Nat.cast_pos.mpr (List.length_pos.mpr hne))

lemma qmad_nonneg (l : List ℚ) : 0 ≤ qmad l := by
  rw [qmad]
  refine div_nonneg (List.sum_nonneg ?_) (Nat.cast_nonneg _)
  intro x hx
  obtain ⟨y, _, rfl⟩ := List.mem_map.mp hx
  exact abs_nonneg _

lemma nbrs_pos (F : ℕ → ℕ → ℚ) (i j px py k : ℕ) :
    ∀ x ∈ nbrs F i j px py k, 0 < x := by
  intro x hx
  rw [nbrs, List.mem_flatten] at hx
  obtain ⟨row, hrow, hxrow⟩ := hx
  rw [List.mem_map] at hrow
  obtain ⟨u, _, rfl⟩ := hrow
  rw [List.mem_filterMap] at hxrow
  obtain ⟨v, _, hv⟩ := hxrow
  by_cases h0 : (0 : ℚ) <
      (if fpCell k u v < 0 then (-5 : ℚ)
       else F (symIdx i ((px : ℤ) - ((k - 1) / 2 : ℕ) + (u : ℕ)))
         (symIdx j ((py : ℤ) - ((k - 1) / 2 : ℕ) + (v : ℕ))))
  · simp only [if_pos h0] at hv
    cases hv
    exact h0
  · simp only [if_neg h0] at hv
    cases hv

/-! ### Evaluation lemmas for `meanMADWindow` and the back-fill fold -/

lemma meanMADWindow_skip (F : ℕ → ℕ → ℚ) (i j k px py : ℕ)
    (h : ¬((k = 5 ∨ F px py = -4) ∧ F px py ≠ -2 ∧ F px py ≠ -1)) :
    meanMADWindow F i j k px py = (-4, -4) := by
  simp only [meanMADWindow]
  rw [if_neg h]

lemma meanMADWindow_fail (F : ℕ → ℕ → ℚ) (i j k px py : ℕ)
    (h : ¬(8 < (nbrs F i j px py k).length ∧
      (1 / 4 : ℚ) * (k : ℚ) ^ 2 < ((nbrs F i j px py k).length : ℚ))) :
    meanMADWindow F i j k px py = (-4, -4) := by
  simp only [meanMADWindow]
  by_cases hout : (k = 5 ∨ F px py = -4) ∧ F px py ≠ -2 ∧ F px py ≠ -1
  · rw [if_pos hout, if_neg h]
  · rw [if_neg hout]

lemma meanMADWindow_stats (F : ℕ → ℕ → ℚ) (i j k px py : ℕ)
    (h1 : (k = 5 ∨ F px py = -4) ∧ F px py ≠ -2 ∧ F px py ≠ -1)
    (h2 : 8 < (nbrs F i j px py k).length ∧
      (1 / 4 : ℚ) * (k : ℚ) ^ 2 < ((nbrs F i j px py k).length : ℚ)) :
    meanMADWindow F i j k px py =
      (qmean (nbrs F i j px py k), qmad (nbrs F i j px py k)) := by
  simp only [meanMADWindow]
  rw [if_pos h1, if_pos h2]

lemma meanMADWindow_of_ne (F : ℕ → ℕ → ℚ) (i j k px py : ℕ)
    (hk : k ≠ 5) (hc : F px py ≠ -4) :
    meanMADWindow F i j k px py = (-4, -4) := by
  refine meanMADWindow_skip F i j k px py ?_
  rintro ⟨hk5 | hc4, -, -⟩
  · exact hk hk5
  · exact hc hc4

lemma fillStep_keep (x : ℚ) : fillStep x (-4) = x := by
  rw [fillStep]
  split
  · rename_i h
    exact h.symm
  · rfl

lemma foldl_fillPair_const (g : ℕ → ℚ × ℚ) :
    ∀ (l : List ℕ) (acc : ℚ × ℚ), (∀ k ∈ l, g k = (-4, -4)) →
      l.foldl (fun a k => fillPair a (g k)) acc = acc := by
  intro l
  induction l with
  | nil => intro acc _; rfl
  | cons hd tl ih =>
    intro acc hmem
    have hstep : fillPair acc (g hd) = acc := by
      rw [hmem hd (List.mem_cons_self hd tl), fillPair, fillStep_keep,
        fillStep_keep]
    rw [List.foldl_cons, hstep]
    exact ih acc fun k hk => hmem k (List.mem_cons_of_mem hd hk)

/-- Key behaviour of the source's multi-window loop: at any pixel whose input
field value is not exactly `-4`, every pass with `k > 5` leaves the cell at
`-4`, so the back-fill returns the `k = 5` pass unchanged. -/
lemma wakelin_eq_window5 (F : ℕ → ℕ → ℚ) (i j px py : ℕ)
    (hc : F px py ≠ -4) :
    wakelinMeanMADFilter F i j px py = meanMADWindow F i j 5 px py := by
  rw [wakelinMeanMADFilter]
  refine foldl_fillPair_const (fun k => meanMADWindow F i j k px py) ksRest
    (meanMADWindow F i j 5 px py) ?_
  intro k hk
  refine meanMADWindow_of_ne F i j k px py ?_ hc
  have hall : ∀ x ∈ ksRest, x ≠ 5 := by decide
  exact hall k hk

/-! ### The output invariant of the adaptive filter -/

lemma statOK_fillPair {a w : ℚ × ℚ} (ha : statOK a) (hw : statOK w) :
    statOK (fillPair a w) := by
  by_cases h1 : a.1 = -4
  · have h2 : a.2 = -4 := ha.1.mp h1
    rw [fillPair, fillStep, fillStep, if_pos h1, if_pos h2]
    exact hw
  · have h2 : a.2 ≠ -4 := fun hh => h1 (ha.1.mpr hh)
    rw [fillPair, fillStep, fillStep, if_neg h1, if_neg h2]
    exact ha

lemma foldl_fillPair_statOK (g : ℕ → ℚ × ℚ) :
    ∀ (l : List ℕ) (acc : ℚ × ℚ), statOK acc → (∀ k ∈ l, statOK (g k)) →
      statOK (l.foldl (fun a k => fillPair a (g k)) acc) := by
  intro l
  induction l with
  | nil => intro acc hacc _; exact hacc
  | cons hd tl ih =>
    intro acc hacc hmem
    rw [List.foldl_cons]
    exact ih (fillPair acc (g hd))
      (statOK_fillPair hacc (hmem hd (List.mem_cons_self hd tl)))
      (fun k hk => hmem k (List.mem_cons_of_mem hd hk))

lemma statOK_default : statOK ((-4 : ℚ), (-4 : ℚ)) :=
  ⟨Iff.rfl, Or.inl rfl, Or.inl rfl⟩

lemma meanMADWindow_statOK (F : ℕ → ℕ → ℚ) (i j k px py : ℕ) :
    statOK (meanMADWindow F i j k px py) := by
  by_cases hout : (k = 5 ∨ F px py = -4) ∧ F px py ≠ -2 ∧ F px py ≠ -1
  · by_cases hin : 8 < (nbrs F i j px py k).length ∧
        (1 / 4 : ℚ) * (k : ℚ) ^ 2 < ((nbrs F i j px py k).length : ℚ)
    · rw [meanMADWindow_stats F i j k px py hout hin]
      have hne : nbrs F i j px py k ≠ [] :=
        List.ne_nil_of_length_pos (Nat.lt_trans (by norm_num) hin.1)
      have hm : 0 < qmean (nbrs F i j px py k) :=
        qmean_pos hne (nbrs_pos F i j px py k)
      have hd : 0 ≤ qmad (nbrs F i j px py k) := qmad_nonneg _
      refine ⟨iff_of_false ?_ ?_, Or.inr hm, Or.inr hd⟩
      · intro heq
        have heq2 : qmean (nbrs F i j px py k) = -4 := heq
        rw [heq2] at hm
        norm_num at hm
      · intro heq
        have heq2 : qmad (nbrs F i j px py k) = -4 := heq
        rw [heq2] at hd
        norm_num at hd
    · rw [meanMADWindow_fail F i j k px py hin]
      exact statOK_default
  · rw [meanMADWindow_skip F i j k px py hout]
    exact statOK_default

/-! ### Concrete evaluations on the example grids -/

lemma nbrsA5 : nbrs exGridA 5 5 2 2 5 = List.replicate 4 10 := by decide

lemma nbrsA7 : nbrs exGridA 5 5 2 2 7 = List.replicate 16 10 := by decide

lemma nbrsB5 : nbrs exGridB 5 5 2 2 5 = List.replicate 22 10 := by decide

lemma windowSucceedsA5 : windowSucceeds exGridA 5 5 2 2 5 = false := by
  rw [windowSucceeds, decide_eq_false_iff_not, nbrsA5]
  intro hcon
  have := hcon.1
  rw [List.length_replicate] at this
  omega

lemma windowSucceedsA7 : windowSucceeds exGridA 5 5 2 2 7 = true := by
  rw [windowSucceeds, decide_eq_true_eq, nbrsA7, List.length_replicate]
  norm_num

lemma specA_eval : specAdaptiveMeanMAD exGridA 5 5 2 2 = (10, 0) := by
  have h5 : ¬(windowSucceeds exGridA 5 5 2 2 5 = true) := by
    rw [windowSucceedsA5]
    exact Bool.false_ne_true
  rw [specAdaptiveMeanMAD, kSizes, List.find?_cons_of_neg _ h5,
    List.find?_cons_of_pos _ windowSucceedsA7]
  show (qmean (nbrs exGridA 5 5 2 2 7), qmad (nbrs exGridA 5 5 2 2 7)) =
    (10, 0)
  rw [nbrsA7, qmean_replicate 16 10 (by norm_num),
    qmad_replicate 16 10 (by norm_num)]

lemma wakelinA_eval : wakelinMeanMADFilter exGridA 5 5 2 2 = (-4, -4) := by
  rw [wakelin_eq_window5 exGridA 5 5 2 2 (by decide)]
  refine meanMADWindow_fail exGridA 5 5 5 2 2 ?_
  rw [nbrsA5]
  intro hcon
  have := hcon.1
  rw [List.length_replicate] at this
  omega

lemma wakelinB_eval : wakelinMeanMADFilter exGridB 5 5 2 2 = (10, 0) := by
  rw [wakelin_eq_window5 exGridB 5 5 2 2 (by decide)]
  rw [meanMADWindow_stats exGridB 5 5 5 2 2 (by decide)
    (by rw [nbrsB5, List.length_replicate]; norm_num)]
  rw [nbrsB5, qmean_replicate 22 10 (by norm_num),
    qmad_replicate 22 10 (by norm_num)]

/-! ### Claim theorems for the adaptive filter -/

/-- C1: the spec's smallest-successful-window semantics fails on the code.
On the concrete 5×5 field `exGridA`, whose centre pixel holds the valid value
`10` (neither the water `-1` nor the cloud `-2` sentinel), the 5×5 window has
only 4 valid neighbours while the 7×7 window has 16 — enough to succeed — so
the spec's adaptive statistics are `(10, 0)`; but the code's loop only
processes a pixel at `k > 5` when the *input field* value is exactly `-4`, so
`wakelinMeanMADFilter` leaves the pixel at `(-4, -4)`. -/
theorem c1_adaptive_retry_never_fires :
    exGridA 2 2 ≠ -1 ∧ exGridA 2 2 ≠ -2 ∧
    specAdaptiveMeanMAD exGridA 5 5 2 2 = (10, 0) ∧
    wakelinMeanMADFilter exGridA 5 5 2 2 = (-4, -4) ∧
    ((10 : ℚ), (0 : ℚ)) ≠ ((-4 : ℚ), (-4 : ℚ)) :=
  ⟨by decide, by decide, specA_eval, wakelinA_eval, by decide⟩

/-- C2: on any field containing no cell equal to `-4`, the whole multi-window
filter coincides with the single `k = 5` pass at every in-range pixel — the
passes at `k ∈ {7, …, 21}` assign nothing, and the back-fill loop changes
nothing. -/
theorem c2_no_minus4_single_window (F : ℕ → ℕ → ℚ) (i j : ℕ)
    (hF : ∀ r < i, ∀ c < j, F r c ≠ -4) (px py : ℕ)
    (hpx : px < i) (hpy : py < j) :
    wakelinMeanMADFilter F i j px py = meanMADWindow F i j 5 px py :=
  wakelin_eq_window5 F i j px py (hF px hpx py hpy)

theorem c2_witness :
    (∀ r < 5, ∀ c < 5, exGridB r c ≠ -4) ∧
    wakelinMeanMADFilter exGridB 5 5 2 2 = meanMADWindow exGridB 5 5 5 2 2 :=
  ⟨by decide,
    c2_no_minus4_single_window exGridB 5 5 (by decide) 2 2 (by decide)
      (by decide)⟩

/-- C8: at every pixel of every field, `Mean = -4 ↔ MAD = -4`; a mean that is
not `-4` is strictly positive, and a MAD that is not `-4` is non-negative. -/
theorem c8_mean_mad_invariant (F : ℕ → ℕ → ℚ) (i j px py : ℕ) :
    ((wakelinMeanMADFilter F i j px py).1 = -4 ↔
      (wakelinMeanMADFilter F i j px py).2 = -4) ∧
    ((wakelinMeanMADFilter F i j px py).1 = -4 ∨
      0 < (wakelinMeanMADFilter F i j px py).1) ∧
    ((wakelinMeanMADFilter F i j px py).2 = -4 ∨
      0 ≤ (wakelinMeanMADFilter F i j px py).2) := by
  rw [wakelinMeanMADFilter]
  exact foldl_fillPair_statOK (fun k => meanMADWindow F i j k px py) ksRest
    (meanMADWindow F i j 5 px py) (meanMADWindow_statOK F i j 5 px py)
    (fun k _ => meanMADWindow_statOK F i j k px py)

/-- C9: a pixel whose own field value is the water (`-1`) or cloud (`-2`)
sentinel is never processed — both outputs stay `-4` — while a
background-candidate (`-3`) centre is processed like a valid centre and can
receive computed statistics, as on the concrete field `exGridB`. -/
theorem c9_skip_rule :
    (∀ (F : ℕ → ℕ → ℚ) (i j px py : ℕ),
      F px py = -1 ∨ F px py = -2 →
      wakelinMeanMADFilter F i j px py = (-4, -4)) ∧
    (exGridB 2 2 = -3 ∧ wakelinMeanMADFilter exGridB 5 5 2 2 = (10, 0)) := by
  constructor
  · intro F i j px py hc
    have hskip : ∀ k, meanMADWindow F i j k px py = (-4, -4) := by
      intro k
      refine meanMADWindow_skip F i j k px py ?_
      rintro ⟨-, hne2, hne1⟩
      rcases hc with h | h
      · exact hne1 h
      · exact hne2 h
    rw [wakelinMeanMADFilter, hskip 5]
    exact foldl_fillPair_const (fun k => meanMADWindow F i j k px py) ksRest
      ((-4 : ℚ), (-4 : ℚ)) (fun k _ => hskip k)
  · exact ⟨by decide, wakelinB_eval⟩

theorem c9_witness : wakelinMeanMADFilter exGridC 5 5 2 2 = (-4, -4) :=
  c9_skip_rule.1 exGridC 5 5 2 2 (Or.inl (by decide))

/-! ### Counting lemmas for the footprint mask -/

lemma countP_range_mem (a b : ℕ) :
    ∀ n : ℕ, (List.range n).countP (fun c => decide (a ≤ c ∧ c < b)) =
      min b n - min a n := by
  intro n
  induction n with
  | zero =>
    rw [List.range_zero, List.countP_nil]
    omega
  | succ m ih =>
    rw [List.range_succ, List.countP_append, ih, List.countP_singleton]
    by_cases h : a ≤ m ∧ m < b
    · rw [if_pos (decide_eq_true h)]
      omega
    · rw [if_neg (by rw [decide_eq_true_eq]; exact h)]
      omega

lemma countP_range_notmem (a b : ℕ) :
    ∀ n : ℕ, (List.range n).countP (fun c => !decide (a ≤ c ∧ c < b)) =
      n - (min b n - min a n) := by
  intro n
  induction n with
  | zero =>
    rw [List.range_zero, List.countP_nil]
    omega
  | succ m ih =>
    rw [List.range_succ, List.countP_append, ih, List.countP_singleton]
    by_cases h : a ≤ m ∧ m < b
    · rw [if_neg (by
        rw [Bool.not_eq_true, Bool.not_eq_false', decide_eq_true_eq]
        exact h)]
      omega
    · rw [if_pos (by
        rw [Bool.not_eq_true', decide_eq_false_iff_not]
        exact h)]
      omega

lemma sum_map_const {α : Type} (l : List α) (f : α → ℕ) (c : ℕ)
    (h : ∀ x ∈ l, f x = c) : (l.map f).sum = l.length * c := by
  rw [List.map_congr_left h, List.map_const', List.sum_replicate, smul_eq_mul,
    mul_comm]

lemma sum_range_ite (v w : ℕ) :
    ∀ n zl : ℕ, zl < n →
      ((List.range n).map (fun r => if r = zl then v else w)).sum =
        (n - 1) * w + v := by
  intro n
  induction n with
  | zero => intro zl h; exact absurd h (Nat.not_lt_zero zl)
  | succ m ih =>
    intro zl hzl
    rw [List.range_succ, List.map_append, List.sum_append, List.map_cons,
      List.map_nil, List.sum_cons, List.sum_nil]
    rw [Nat.add_sub_cancel]
    rcases Nat.lt_succ_iff_lt_or_eq.mp hzl with hlt | heq
    · rw [ih zl hlt, if_neg (by omega)]
      have hstep : (m - 1) * w + w = m * w := by
        rw [Nat.sub_one_mul]
        have hw : w ≤ m * w := Nat.le_mul_of_pos_left w (by omega)
        omega
      omega
    · subst heq
      rw [if_pos rfl]
      have hconst : ∀ x ∈ List.range zl,
          (if x = zl then v else w) = w := by
        intro x hx
        rw [if_neg]
        intro hcon
        rw [hcon] at hx
        exact List.not_mem_range_self hx
      rw [sum_map_const (List.range zl) _ w hconst, List.length_range]
      omega

lemma footprint_row_eq (k r : ℕ) (hr : r ≠ (k - 1) / 2) :
    (List.range k).map (fun c =>
      if r = (k - 1) / 2 ∧
          ((k - 1) / 2 - 1 ≤ c ∧ c < (k - 1) / 2 - 1 + 3) then
        (-5 : ℤ)
      else 1) = List.replicate k 1 := by
  rw [List.map_congr_left (g := fun _ => (1 : ℤ))
    (by intro c _; rw [if_neg]; rintro ⟨hc, -⟩; exact hr hc)]
  rw [List.map_const', List.length_range]

lemma footprint_mid_count5 (k : ℕ) (hk : 5 ≤ k) :
    ((List.range k).map (fun c =>
      if (k - 1) / 2 = (k - 1) / 2 ∧
          ((k - 1) / 2 - 1 ≤ c ∧ c < (k - 1) / 2 - 1 + 3) then
        (-5 : ℤ)
      else 1)).count (-5) = 3 := by
  rw [List.count_eq_countP, List.countP_map]
  have hfun : ((fun x => x == (-5 : ℤ)) ∘ (fun c =>
      if (k - 1) / 2 = (k - 1) / 2 ∧
          ((k - 1) / 2 - 1 ≤ c ∧ c < (k - 1) / 2 - 1 + 3) then
        (-5 : ℤ)
      else 1)) =
      (fun c => decide ((k - 1) / 2 - 1 ≤ c ∧ c < (k - 1) / 2 - 1 + 3)) := by
    funext c
    rw [Function.comp_apply]
    by_cases h : (k - 1) / 2 - 1 ≤ c ∧ c < (k - 1) / 2 - 1 + 3
    · rw [if_pos ⟨rfl, h⟩, decide_eq_true h]
      decide
    · rw [if_neg (fun hcon => h hcon.2), decide_eq_false h]
      decide
  rw [hfun, countP_range_mem]
  omega

lemma footprint_mid_count1 (k : ℕ) (hk : 5 ≤ k) :
    ((List.range k).map (fun c =>
      if (k - 1) / 2 = (k - 1) / 2 ∧
          ((k - 1) / 2 - 1 ≤ c ∧ c < (k - 1) / 2 - 1 + 3) then
        (-5 : ℤ)
      else 1)).count 1 = k - 3 := by
  rw [List.count_eq_countP, List.countP_map]
  have hfun : ((fun x => x == (1 : ℤ)) ∘ (fun c =>
      if (k - 1) / 2 = (k - 1) / 2 ∧
          ((k - 1) / 2 - 1 ≤ c ∧ c < (k - 1) / 2 - 1 + 3) then
        (-5 : ℤ)
      else 1)) =
      (fun c => !decide ((k - 1) / 2 - 1 ≤ c ∧ c < (k - 1) / 2 - 1 + 3)) := by
    funext c
    rw [Function.comp_apply]
    by_cases h : (k - 1) / 2 - 1 ≤ c ∧ c < (k - 1) / 2 - 1 + 3
    · rw [if_pos ⟨rfl, h⟩, decide_eq_true h]
      decide
    · rw [if_neg (fun hcon => h hcon.2), decide_eq_false h]
      decide
  rw [hfun, countP_range_notmem]
  omega

/-! ### Claim theorems for the footprint generator -/

/-- C10 counterexample: the claim says the three exclusion cells of
`makeFootprint` hold `-1`; in the code they hold `-5`.  At `k = 5` the cell
at row `2`, column `1` is `-5`, not `-1`. -/
theorem c10_counterexample :
    ((makeFootprint 5).getD 2 []).getD 1 1 = -5 ∧ ((-5 : ℤ) ≠ -1) :=
  ⟨by decide, by decide⟩

/-- C10 (amended: the three exclusion cells hold `-5`, not `-1`): for every
odd `k ≥ 5`, `makeFootprint k` has exactly `k² - 3` cells equal to `+1` and
exactly `3` cells equal to `-5`, and a cell equals `-5` exactly at row
`(k-1)/2`, columns `(k-1)/2 - 1 .. (k-1)/2 + 1`. -/
theorem c10_footprint_shape (k : ℕ) (hodd : k % 2 = 1) (hk : 5 ≤ k) :
    (((makeFootprint k).map (fun row => row.count 1)).sum = k ^ 2 - 3) ∧
    (((makeFootprint k).map (fun row => row.count (-5))).sum = 3) ∧
    (∀ r, r < k → ∀ c, c < k →
      (((makeFootprint k).getD r []).getD c 1 = -5 ↔
        (r = (k - 1) / 2 ∧
          ((k - 1) / 2 - 1 ≤ c ∧ c ≤ (k - 1) / 2 + 1)))) := by
  have hzk : (k - 1) / 2 + 2 ≤ k := by omega
  have hz2 : 2 ≤ (k - 1) / 2 := by omega
  refine ⟨?_, ?_, ?_⟩
  · rw [makeFootprint, List.map_map]
    rw [List.map_congr_left
      (g := fun r => if r = (k - 1) / 2 then k - 3 else k) ?_]
    · rw [sum_range_ite (k - 3) k k ((k - 1) / 2) (by omega), pow_two]
      have h3 : 3 ≤ k * k := by
        calc 3 ≤ 5 * 5 := by omega
        _ ≤ k * k := Nat.mul_le_mul hk hk
      zify [show 1 ≤ k by omega, show 3 ≤ k by omega, h3]
      ring
    · intro r _
      rw [Function.comp_apply]
      by_cases hr : r = (k - 1) / 2
      · subst hr
        rw [footprint_mid_count1 k hk]
        simp
      · rw [footprint_row_eq k r hr, List.count_replicate_self]
        simp [hr]
  · rw [makeFootprint, List.map_map]
    rw [List.map_congr_left
      (g := fun r => if r = (k - 1) / 2 then 3 else 0) ?_]
    · rw [sum_range_ite 3 0 k ((k - 1) / 2) (by omega)]
      omega
    · intro r _
      rw [Function.comp_apply]
      by_cases hr : r = (k - 1) / 2
      · subst hr
        rw [footprint_mid_count5 k hk]
        simp
      · rw [footprint_row_eq k r hr, List.count_replicate]
        simp [hr]
  · intro r hr c hc
    simp only [makeFootprint, List.getD_eq_getElem?_getD, List.getElem?_map,
      List.getElem?_range hr, List.getElem?_range hc, Option.map_some',
      Option.getD_some]
    by_cases h : r = (k - 1) / 2 ∧
        ((k - 1) / 2 - 1 ≤ c ∧ c < (k - 1) / 2 - 1 + 3)
    · rw [if_pos h]
      exact iff_of_true rfl ⟨h.1, by omega⟩
    · rw [if_neg h]
      refine iff_of_false (by norm_num) ?_
      rintro ⟨h1, h2⟩
      exact h ⟨h1, by omega⟩

theorem c10_witness :
    5 % 2 = 1 ∧ 5 ≤ 5 ∧
    ((((makeFootprint 5).map (fun row => row.count 1)).sum = 5 ^ 2 - 3) ∧
    (((makeFootprint 5).map (fun row => row.count (-5))).sum = 3) ∧
    (∀ r, r < 5 → ∀ c, c < 5 →
      (((makeFootprint 5).getD r []).getD c 1 = -5 ↔
        (r = (5 - 1) / 2 ∧
          ((5 - 1) / 2 - 1 ≤ c ∧ c ≤ (5 - 1) / 2 + 1))))) :=
  ⟨rfl, by decide, c10_footprint_shape 5 rfl (by decide)⟩

/-! ### Claim theorems for the ramp function -/

lemma rampFn_pair_eval :
    rampFn [4, -3] (5 / 2) 6 = [(3 / 7 : ℚ), 3 / 7] := by
  rw [rampFn]
  norm_num [List.foldl]

/-- C7: `rampFn` does not compute the spec's ramp pointwise.  On the band
`[4, -3]` with `rampMin = 5/2`, `rampMax = 6`, the first element sets
`conf = 3/7`; the second element satisfies `v ≤ rampMin`, so neither branch
fires and it *inherits* `3/7` instead of the `0` the spec's ramp (and the
source's own comment about masked `-3` values) requires. -/
theorem c7_ramp_carries_conf_across_elements :
    rampFn [4, -3] (5 / 2) 6 = [(3 / 7 : ℚ), 3 / 7] ∧
    specRamp (-3) (5 / 2) 6 = 0 ∧ ((3 / 7 : ℚ) ≠ 0) := by
  refine ⟨rampFn_pair_eval, ?_, by norm_num⟩
  rw [specRamp, if_pos (by norm_num)]

/-! ### Claim theorems for the detection cascade -/

/-- C3: the cascade combination.  With every test grid holding `0` or `1`
(as each is built from `np.zeros` with selective assignment of `1`), the
final fire mask is `1` exactly when the pixel is an initial fire — day:
`absolute ∨ (potential ∧ (3)∧(4)∧(5) ∧ ((6)∨(7)))`; night:
`(3)∧(4)∧(5) ∨ absolute` — and none of the sunglint, desert-boundary or
coastal rejection flags fired. -/
theorem c3_cascade_combination
    (dayFlag potFire absValTest t3 t4 t5 t6 t7 sgAll dbAll rejUW : ℤ)
    (hday : dayFlag = 0 ∨ dayFlag = 1)
    (hpot : potFire = 0 ∨ potFire = 1)
    (habs : absValTest = 0 ∨ absValTest = 1)
    (h3 : t3 = 0 ∨ t3 = 1) (h4 : t4 = 0 ∨ t4 = 1) (h5 : t5 = 0 ∨ t5 = 1)
    (h6 : t6 = 0 ∨ t6 = 1) (h7 : t7 = 0 ∨ t7 = 1)
    (hsg : sgAll = 0 ∨ sgAll = 1) (hdb : dbAll = 0 ∨ dbAll = 1)
    (huw : rejUW = 0 ∨ rejUW = 1) :
    allFiresFinal
      (allFires
        (dayFires dayFlag absValTest
          (fireLocTentativeDay potFire (fireLocTentative t3 t4 t5)
            (fireLocB31andB22rejFire t7 t6)))
        (nightFires dayFlag (fireLocTentative t3 t4 t5) absValTest))
      sgAll dbAll rejUW = 1 ↔
    (((dayFlag = 1 ∧
        (absValTest = 1 ∨
          (potFire = 1 ∧ (t3 = 1 ∧ t4 = 1 ∧ t5 = 1) ∧
            (t6 = 1 ∨ t7 = 1)))) ∨
      (dayFlag = 0 ∧ ((t3 = 1 ∧ t4 = 1 ∧ t5 = 1) ∨ absValTest = 1))) ∧
     ¬(sgAll = 1 ∨ dbAll = 1 ∨ rejUW = 1)) := by
  rcases hday with rfl | rfl <;> rcases hpot with rfl | rfl <;>
    rcases habs with rfl | rfl <;> rcases h3 with rfl | rfl <;>
    rcases h4 with rfl | rfl <;> rcases h5 with rfl | rfl <;>
    rcases h6 with rfl | rfl <;> rcases h7 with rfl | rfl <;>
    rcases hsg with rfl | rfl <;> rcases hdb with rfl | rfl <;>
    rcases huw with rfl | rfl <;> decide

theorem c3_witness :
    allFiresFinal
      (allFires
        (dayFires 1 0
          (fireLocTentativeDay 1 (fireLocTentative 1 1 1)
            (fireLocB31andB22rejFire 0 1)))
        (nightFires 1 (fireLocTentative 1 1 1) 0))
      0 0 0 = 1 ↔
    ((((1 : ℤ) = 1 ∧
        ((0 : ℤ) = 1 ∨
          ((1 : ℤ) = 1 ∧ ((1 : ℤ) = 1 ∧ (1 : ℤ) = 1 ∧ (1 : ℤ) = 1) ∧
            ((1 : ℤ) = 1 ∨ (0 : ℤ) = 1)))) ∨
      ((1 : ℤ) = 0 ∧ (((1 : ℤ) = 1 ∧ (1 : ℤ) = 1 ∧ (1 : ℤ) = 1) ∨
        (0 : ℤ) = 1))) ∧
     ¬((0 : ℤ) = 1 ∨ (0 : ℤ) = 1 ∨ (0 : ℤ) = 1)) :=
  c3_cascade_combination 1 1 0 1 1 1 1 0 0 0 0
    (Or.inr rfl) (Or.inr rfl) (Or.inl rfl) (Or.inr rfl) (Or.inr rfl)
    (Or.inr rfl) (Or.inr rfl) (Or.inl rfl) (Or.inl rfl) (Or.inl rfl)
    (Or.inl rfl)

/-! ### Claim theorems for the coastal rejection chain -/

lemma ndviCell_eq_zero_or_one (b1 b2 : ℤ) :
    ndviCell b1 b2 = 0 ∨ ndviCell b1 b2 = 1 := by
  rw [ndviCell]
  rcases eq_or_ne (b2 + b1) 0 with h | h
  · left
    rw [h]
    decide
  · right
    exact Int.fdiv_self h

/-- C5 counterexample: the implemented unmasked-water predicate is *not*
equivalent to the reduced test `R_swir < 50 ∧ R_vis2 < 150`.  At
`R_vis1 = R_vis2 = 100`, `R_swir = 0` (nonzero NDVI denominator) the reduced
test holds but the implemented one does not, because
`ndvi = 200/200 = 1 ≥ 0`. -/
theorem c5_counterexample :
    ¬(uwPredicate 100 100 0 ↔ reducedCoastalTest 100 0) := by
  decide

/-- C5 (amended): the implemented unmasked-water predicate never holds at
all — the integer NDVI `x/x` is `0` or `1`, never negative — so the
unmasked-water grid flags no pixel; dropping the `ndvi < 0` conjunct would
*not* preserve behaviour, since the reduced test is satisfiable. -/
theorem c5_unmasked_water_never_fires :
    (∀ b1 b2 b7 : ℤ, ¬uwPredicate b1 b2 b7) ∧
    reducedCoastalTest 100 0 := by
  constructor
  · intro b1 b2 b7 hcon
    rw [uwPredicate] at hcon
    rcases ndviCell_eq_zero_or_one b1 b2 with h | h <;>
      rw [h] at hcon <;> exact absurd hcon.1 (by decide)
  · exact ⟨by decide, by decide⟩

lemma unmaskedWaterGrid_ne_neg6 (B1 B2 B7 BG : ℕ → ℕ → ℤ) (p q : ℕ) :
    unmaskedWaterGrid B1 B2 B7 BG p q ≠ -6 := by
  rw [unmaskedWaterGrid, unmaskedWaterCell]
  by_cases hbg : BG p q = -3
  · rw [if_pos hbg]
    decide
  · rw [if_neg hbg, if_neg ?_]
    · decide
    rintro ⟨hlt, -, -⟩
    rcases ndviCell_eq_zero_or_one (B1 p q) (B2 p q) with h | h <;>
      rw [h] at hlt <;> exact absurd hlt (by decide)

lemma nUnmaskedWaterFilt_values (kernel : ℕ → ℕ → ℤ) (k : ℕ)
    (hker : ∀ u v, kernel u v ≠ -6) :
    nUnmaskedWaterFilt kernel k = -4 ∨ nUnmaskedWaterFilt kernel k = 0 := by
  rw [nUnmaskedWaterFilt]
  by_cases hcond : (k = 5 ∨ kernel ((k - 1) / 2) ((k - 1) / 2) = -4) ∧
      kernel ((k - 1) / 2) ((k - 1) / 2) ≠ -3 ∧
      kernel ((k - 1) / 2) ((k - 1) / 2) ≠ -2 ∧
      kernel ((k - 1) / 2) ((k - 1) / 2) ≠ -1
  · right
    rw [if_pos hcond]
    have hsum : ((List.range k).map (fun u =>
        (List.range k).countP (fun v => kernel u v == -6))).sum = 0 := by
      rw [sum_map_const _ _ 0 ?_, mul_zero]
      intro u _
      rw [List.countP_eq_zero]
      intro v _
      rw [beq_iff_eq]
      exact hker u v
    rw [hsum]
    rfl
  · left
    rw [if_neg hcond]

lemma genericFilter_apply (filtFunc : (ℕ → ℕ → ℤ) → ℕ → ℤ)
    (G : ℕ → ℕ → ℤ) (i j kSize px py : ℕ) :
    genericFilter filtFunc G i j kSize px py =
      filtFunc (fun u v =>
        G (symIdx i ((px : ℤ) - ((kSize - 1) / 2 : ℕ) + (u : ℕ)))
          (symIdx j ((py : ℤ) - ((kSize - 1) / 2 : ℕ) + (v : ℕ)))) kSize :=
  rfl

lemma runFiltSeq_nUW_values (G : ℕ → ℕ → ℤ) (i j : ℕ)
    (hG : ∀ p q, G p q ≠ -6) :
    ∀ n px py, runFiltSeq nUnmaskedWaterFilt G i j n px py = -4 ∨
      runFiltSeq nUnmaskedWaterFilt G i j n px py = 0 := by
  intro n
  induction n with
  | zero =>
    intro px py
    rw [runFiltSeq, genericFilter_apply]
    exact nUnmaskedWaterFilt_values _ 5 (fun u v => hG _ _)
  | succ m ih =>
    intro px py
    rw [runFiltSeq, genericFilter_apply]
    refine nUnmaskedWaterFilt_values _ (7 + 2 * m) (fun u v => ?_)
    rcases ih (symIdx i ((px : ℤ) - ((7 + 2 * m - 1) / 2 : ℕ) + (u : ℕ)))
        (symIdx j ((py : ℤ) - ((7 + 2 * m - 1) / 2 : ℕ) + (v : ℕ))) with
      h | h <;> rw [h] <;> decide

lemma foldl_fillStepZ_values (g : ℕ → ℤ) :
    ∀ (l : List ℕ) (acc : ℤ), acc = -4 ∨ acc = 0 →
      (∀ n ∈ l, g n = -4 ∨ g n = 0) →
      (l.foldl (fun a n => fillStepZ a (g n)) acc = -4 ∨
        l.foldl (fun a n => fillStepZ a (g n)) acc = 0) := by
  intro l
  induction l with
  | nil => intro acc hacc _; exact hacc
  | cons hd tl ih =>
    intro acc hacc hmem
    rw [List.foldl_cons]
    refine ih (fillStepZ acc (g hd)) ?_
      (fun n hn => hmem n (List.mem_cons_of_mem hd hn))
    rw [fillStepZ]
    rcases hacc with h | h
    · rw [if_pos h]
      exact hmem hd (List.mem_cons_self hd tl)
    · rw [if_neg (by rw [h]; decide)]
      exact Or.inr h

/-- C6: the coastal false-alarm rejection removes nothing.  For all input
grids, the integer NDVI is `0` or `1` at every pixel, no `unmaskedWater`
cell is ever `-6`, the adaptive unmasked-water count `Nuw` is never
strictly positive, and `rejUnmaskedWater` is identically `0`. -/
theorem c6_no_coastal_rejection (B1 B2 B7 BG absV : ℕ → ℕ → ℤ)
    (i j px py : ℕ) :
    (ndviCell (B1 px py) (B2 px py) = 0 ∨
      ndviCell (B1 px py) (B2 px py) = 1) ∧
    unmaskedWaterGrid B1 B2 B7 BG px py ≠ -6 ∧
    Nuw B1 B2 B7 BG i j px py ≤ 0 ∧
    rejUnmaskedWaterCell (absV px py) (Nuw B1 B2 B7 BG i j px py) = 0 := by
  have hval : Nuw B1 B2 B7 BG i j px py = -4 ∨
      Nuw B1 B2 B7 BG i j px py = 0 := by
    rw [Nuw, runFilt]
    exact foldl_fillStepZ_values
      (fun n => runFiltSeq nUnmaskedWaterFilt
        (unmaskedWaterGrid B1 B2 B7 BG) i j (n + 1) px py)
      (List.range 8) _
      (runFiltSeq_nUW_values _ i j (unmaskedWaterGrid_ne_neg6 B1 B2 B7 BG)
        0 px py)
      (fun n _ => runFiltSeq_nUW_values _ i j
        (unmaskedWaterGrid_ne_neg6 B1 B2 B7 BG) (n + 1) px py)
  have hle : Nuw B1 B2 B7 BG i j px py ≤ 0 := by
    rcases hval with h | h <;> omega
  refine ⟨ndviCell_eq_zero_or_one _ _,
    unmaskedWaterGrid_ne_neg6 B1 B2 B7 BG px py, hle, ?_⟩
  rw [rejUnmaskedWaterCell, if_neg]
  rintro ⟨-, hpos⟩
  exact absurd (lt_of_lt_of_le hpos hle) (by decide)

/-! ### Claim theorems for the confidence combiner -/

lemma detnConfDay_pow (c1 c2 c3 c4 c5 : ℝ) (h1 : 0 ≤ c1) (h2 : 0 ≤ c2)
    (h3 : 0 ≤ c3) (h4 : 0 ≤ c4) (h5 : 0 ≤ c5) :
    detnConfDay c1 c2 c3 c4 c5 ^ 5 = c1 * c2 * c3 * c4 * c5 ∧
    0 ≤ detnConfDay c1 c2 c3 c4 c5 := by
  by_cases hz : c1 = 0 ∨ c2 = 0 ∨ c3 = 0 ∨ c4 = 0 ∨ c5 = 0
  · rw [detnConfDay, if_pos hz]
    refine ⟨?_, le_refl 0⟩
    rcases hz with rfl | rfl | rfl | rfl | rfl <;> simp
  · push_neg at hz
    obtain ⟨hz1, hz2, hz3, hz4, hz5⟩ := hz
    have hp1 : 0 < c1 := lt_of_le_of_ne h1 (Ne.symm hz1)
    have hp2 : 0 < c2 := lt_of_le_of_ne h2 (Ne.symm hz2)
    have hp3 : 0 < c3 := lt_of_le_of_ne h3 (Ne.symm hz3)
    have hp4 : 0 < c4 := lt_of_le_of_ne h4 (Ne.symm hz4)
    have hp5 : 0 < c5 := lt_of_le_of_ne h5 (Ne.symm hz5)
    rw [detnConfDay, if_neg (by push_neg; exact ⟨hz1, hz2, hz3, hz4, hz5⟩)]
    refine ⟨?_, (Real.exp_pos _).le⟩
    rw [← Real.exp_nat_mul]
    have harg : ((5 : ℕ) : ℝ) *
        ((Real.log c1 + Real.log c2 + Real.log c3 + Real.log c4 +
          Real.log c5) / 5) =
        Real.log c1 + Real.log c2 + Real.log c3 + Real.log c4 +
          Real.log c5 := by
      push_cast
      ring
    rw [harg, Real.exp_add, Real.exp_add, Real.exp_add, Real.exp_add,
      Real.exp_log hp1, Real.exp_log hp2, Real.exp_log hp3, Real.exp_log hp4,
      Real.exp_log hp5]

lemma detnConfNight_pow (c1 c2 c3 : ℝ) (h1 : 0 ≤ c1) (h2 : 0 ≤ c2)
    (h3 : 0 ≤ c3) :
    detnConfNight c1 c2 c3 ^ 3 = c1 * c2 * c3 ∧
    0 ≤ detnConfNight c1 c2 c3 := by
  by_cases hz : c1 = 0 ∨ c2 = 0 ∨ c3 = 0
  · rw [detnConfNight, if_pos hz]
    refine ⟨?_, le_refl 0⟩
    rcases hz with rfl | rfl | rfl <;> simp
  · push_neg at hz
    obtain ⟨hz1, hz2, hz3⟩ := hz
    have hp1 : 0 < c1 := lt_of_le_of_ne h1 (Ne.symm hz1)
    have hp2 : 0 < c2 := lt_of_le_of_ne h2 (Ne.symm hz2)
    have hp3 : 0 < c3 := lt_of_le_of_ne h3 (Ne.symm hz3)
    rw [detnConfNight, if_neg (by push_neg; exact ⟨hz1, hz2, hz3⟩)]
    refine ⟨?_, (Real.exp_pos _).le⟩
    rw [← Real.exp_nat_mul]
    have harg : ((3 : ℕ) : ℝ) *
        ((Real.log c1 + Real.log c2 + Real.log c3) / 3) =
        Real.log c1 + Real.log c2 + Real.log c3 := by
      push_cast
      ring
    rw [harg, Real.exp_add, Real.exp_add,
      Real.exp_log hp1, Real.exp_log hp2, Real.exp_log hp3]

/-- C4: the emitted confidence of a fire pixel is the geometric mean of the
applicable sub-scores — characterised by being non-negative with fifth
(day) or third (night) power equal to the product of the sub-scores — and a
zero in any applicable sub-score forces it to `0`. -/
theorem c4_geometric_mean_confidence (dayFlag : ℤ)
    (c1day c1night c2 c3 c4 c5 : ℝ)
    (h1d : 0 ≤ c1day) (h1n : 0 ≤ c1night) (h2 : 0 ≤ c2) (h3 : 0 ≤ c3)
    (h4 : 0 ≤ c4) (h5 : 0 ≤ c5) :
    (dayFlag ≠ 0 →
      detnConf dayFlag c1day c1night c2 c3 c4 c5 ^ 5 =
        c1day * c2 * c3 * c4 * c5 ∧
      0 ≤ detnConf dayFlag c1day c1night c2 c3 c4 c5) ∧
    (dayFlag = 0 →
      detnConf dayFlag c1day c1night c2 c3 c4 c5 ^ 3 =
        c1night * c2 * c3 ∧
      0 ≤ detnConf dayFlag c1day c1night c2 c3 c4 c5) ∧
    ((c1day = 0 ∨ c2 = 0 ∨ c3 = 0 ∨ c4 = 0 ∨ c5 = 0) → dayFlag ≠ 0 →
      detnConf dayFlag c1day c1night c2 c3 c4 c5 = 0) ∧
    ((c1night = 0 ∨ c2 = 0 ∨ c3 = 0) → dayFlag = 0 →
      detnConf dayFlag c1day c1night c2 c3 c4 c5 = 0) := by
  refine ⟨?_, ?_, ?_, ?_⟩
  · intro hday
    rw [detnConf, if_neg hday]
    exact detnConfDay_pow c1day c2 c3 c4 c5 h1d h2 h3 h4 h5
  · intro hday
    rw [detnConf, if_pos hday]
    exact detnConfNight_pow c1night c2 c3 h1n h2 h3
  · intro hz hday
    rw [detnConf, if_neg hday, detnConfDay, if_pos hz]
  · intro hz hday
    rw [detnConf, if_pos hday, detnConfNight, if_pos hz]

theorem c4_witness :
    detnConf 1 1 1 1 1 1 1 ^ 5 = 1 * 1 * 1 * 1 * 1 ∧
    0 ≤ detnConf 1 1 1 1 1 1 1 :=
  (c4_geometric_mean_confidence 1 1 1 1 1 1 1 zero_le_one zero_le_one
    zero_le_one zero_le_one zero_le_one zero_le_one).1 (by decide)

end FRP
